import Mathlib

/-!
# Verification of bevy_alchemy's effect application and timer-merge engine

Shallow embedding of the `bevy_alchemy` status-effect library.

Conventions:
* Real-time quantities (`std::time::Duration`, seconds as `f32`) are modelled as
  exact rationals (`ℚ`); the arithmetic the library performs on them (addition,
  subtraction, multiplication by a fraction, comparison) is exact over `ℚ`.
* Entities are natural-number ids; the ECS world is an association list from id
  to a record of the components relevant to the effect engine.
* Fallible lookups return `Option`.
-/

namespace Alchemy

/-- `bevy_time::TimerMode`: `Once` or `Repeating`. -/
inductive TimerMode where
  | Once
  | Repeating
deriving DecidableEq, Repr

/-- `bevy_time::Timer`: elapsed and total duration (modelled in exact seconds),
the timer mode, and the stored `finished` flag that `tick` maintains. -/
structure Timer where
  elapsed : ℚ
  duration : ℚ
  mode : TimerMode
  finished : Bool
deriving DecidableEq, Repr

/-- `Timer::default()`: zero duration, `Once`, not finished. -/
def Timer.default : Timer := ⟨0, 0, .Once, false⟩

/-- `Timer::new(duration, mode)`. -/
def Timer.new (duration : ℚ) (mode : TimerMode) : Timer :=
  ⟨0, duration, mode, false⟩

/-- `Timer::fraction()`: elapsed over duration, `1.0` when the duration is zero. -/
def Timer.fraction (t : Timer) : ℚ :=
  if t.duration = 0 then 1 else t.elapsed / t.duration

/-- `Timer::remaining_secs()`: duration minus elapsed. -/
def Timer.remaining_secs (t : Timer) : ℚ :=
  t.duration - t.elapsed

/-- `Timer::set_elapsed`. -/
def Timer.set_elapsed (t : Timer) (e : ℚ) : Timer :=
  { t with elapsed := e }

/-- `Timer::set_duration`. -/
def Timer.set_duration (t : Timer) (d : ℚ) : Timer :=
  { t with duration := d }

/-- `Timer::is_finished()`: the stored flag. -/
def Timer.is_finished (t : Timer) : Bool := t.finished

/-- `Timer::tick(delta)`: a once-mode timer advances and clamps at its duration,
setting `finished` when the duration is reached (a finished once-timer no longer
advances); a repeating timer wraps its elapsed value modulo the duration. -/
def Timer.tick (t : Timer) (delta : ℚ) : Timer :=
  match t.mode with
  | .Once =>
      if t.finished then t
      else
        let total := t.elapsed + delta
        { t with elapsed := min total t.duration, finished := decide (t.duration ≤ total) }
  | .Repeating =>
      let total := t.elapsed + delta
      if t.duration = 0 then
        { t with elapsed := 0, finished := true }
      else
        { t with elapsed := total - t.duration * (⌊total / t.duration⌋ : ℤ),
                 finished := decide (t.duration ≤ total) }

/-- `TimerMergeMode` (src/timer.rs): combination policy when two timers of the
same role merge. -/
inductive TimerMergeMode where
  | Replace
  | Keep
  | Fraction
  | Max
  | Sum
deriving DecidableEq, Repr

/-- `Lifetime` component: a once-mode timer plus a `TimerMergeMode`. -/
structure Lifetime where
  timer : Timer
  mode : TimerMergeMode
deriving DecidableEq, Repr

/-- `Lifetime::default()`: default timer, merge mode `Max`. -/
def Lifetime.default : Lifetime := ⟨Timer.default, .Max⟩

/-- `EffectTimer::new` for `Lifetime` (macro `impl_effect_timer!(Lifetime, TimerMode::Once)`). -/
def Lifetime.new (duration : ℚ) : Lifetime :=
  { Lifetime.default with timer := Timer.new duration .Once }

/-- `EffectTimer::from_seconds` for `Lifetime`. -/
def Lifetime.from_seconds (s : ℚ) : Lifetime := Lifetime.new s

/-- `EffectTimer::with_mode` for `Lifetime`. -/
def Lifetime.with_mode (l : Lifetime) (m : TimerMergeMode) : Lifetime :=
  { l with mode := m }

/-- `EffectTimer::merge` for `Lifetime` (macro `impl_effect_timer`, src/timer.rs
lines 71–94): `self` is the new/persisting timer, `other` the old one. -/
def Lifetime.merge (self other : Lifetime) : Lifetime :=
  match self.mode with
  | .Replace => self
  | .Keep => { self with timer := other.timer }
  | .Fraction =>
      { self with timer :=
          self.timer.set_elapsed (other.timer.fraction * self.timer.duration) }
  | .Max =>
      if self.timer.remaining_secs < other.timer.remaining_secs then
        { self with timer := other.timer }
      else self
  | .Sum =>
      { self with timer :=
          self.timer.set_duration (other.timer.duration + self.timer.duration) }

/-- `Delay` component: a repeating timer plus a `TimerMergeMode`. -/
structure Delay where
  timer : Timer
  mode : TimerMergeMode
deriving DecidableEq, Repr

/-- `Delay::default()`: default timer, merge mode `Fraction`. -/
def Delay.default : Delay := ⟨Timer.default, .Fraction⟩

/-- `EffectTimer::new` for `Delay` (macro `impl_effect_timer!(Delay, TimerMode::Repeating)`). -/
def Delay.new (duration : ℚ) : Delay :=
  { Delay.default with timer := Timer.new duration .Repeating }

/-- `EffectTimer::from_seconds` for `Delay`. -/
def Delay.from_seconds (s : ℚ) : Delay := Delay.new s

/-- `EffectTimer::with_mode` for `Delay`. -/
def Delay.with_mode (d : Delay) (m : TimerMergeMode) : Delay :=
  { d with mode := m }

/-- `EffectTimer::merge` for `Delay` (same macro-generated body as for `Lifetime`). -/
def Delay.merge (self other : Delay) : Delay :=
  match self.mode with
  | .Replace => self
  | .Keep => { self with timer := other.timer }
  | .Fraction =>
      { self with timer :=
          self.timer.set_elapsed (other.timer.fraction * self.timer.duration) }
  | .Max =>
      if self.timer.remaining_secs < other.timer.remaining_secs then
        { self with timer := other.timer }
      else self
  | .Sum =>
      { self with timer :=
          self.timer.set_duration (other.timer.duration + self.timer.duration) }

/-- `EffectMode` (src/lib.rs): collision policy for same-identity effects. -/
inductive EffectMode where
  | Stack
  | Insert
  | Merge
deriving DecidableEq, Repr

/-- `EffectStacks::add_assign` / `merge_effect_stacks` arithmetic: unchecked
`u8` addition (`self.0 += rhs`), which wraps modulo 2^8 in release builds
(and panics in debug builds) when the sum exceeds 255. -/
def EffectStacks.add_assign (a b : ℕ) : ℕ := (a + b) % 256

/-- `merge_effect_stacks` (src/component/stack.rs): adds the outgoing effect's
stack count onto the surviving (new) effect's count. -/
def merge_effect_stacks (new outgoing : ℕ) : ℕ :=
  EffectStacks.add_assign new outgoing

/-- Read a payload component of kind `k` from an assoc list of components. -/
def getComp (l : List (ℕ × ℤ)) (k : ℕ) : Option ℤ :=
  (l.find? (fun p => p.1 == k)).map (fun p => p.2)

/-- ECS `insert` of a single component: overwrite the component of kind `k`
when present, otherwise add it. -/
def setComp (l : List (ℕ × ℤ)) (k : ℕ) (v : ℤ) : List (ℕ × ℤ) :=
  if l.any (fun p => p.1 == k) then
    l.map (fun p => if p.1 == k then (k, v) else p)
  else l ++ [(k, v)]

/-- ECS `insert` of a whole payload bundle: each component in the bundle
overwrites the same-kind component on the entity; entity components not in the
bundle are left in place. -/
def insertPayload (old new : List (ℕ × ℤ)) : List (ℕ × ℤ) :=
  new.foldl (fun acc p => setComp acc p.1 p.2) old

/-- The components of one ECS entity that the effect engine touches:
the `Effecting` back-reference, `Name`, `EffectMode`, the two optional effect
timers, the optional `EffectStacks` counter, arbitrary game payload components
(kind id ↦ value), and the `Disabled` marker. -/
structure EffectEntity where
  effecting : Option ℕ
  name : Option String
  mode : Option EffectMode
  lifetime : Option Lifetime
  delay : Option Delay
  effectStacks : Option ℕ
  payload : List (ℕ × ℤ)
  disabled : Bool
deriving DecidableEq, Repr

/-- A freshly spawned empty entity (`world.spawn_empty()`). -/
def EffectEntity.empty : EffectEntity :=
  ⟨none, none, none, none, none, none, [], false⟩

/-- `EffectBundle` (src/bundle.rs): name, mode, and the generic component
bundle `B`, here split into the statically known effect components plus the
game payload. -/
structure EffectBundle where
  name : String
  mode : EffectMode
  lifetime : Option Lifetime
  delay : Option Delay
  effectStacks : Option ℕ
  payload : List (ℕ × ℤ)
deriving DecidableEq, Repr

/-- `EffectMergeRegistry` (src/registry.rs): map from component kind to merge
function. The three built-in registrations (`Lifetime`, `Delay`,
`EffectStacks`) have fixed semantics and are tracked by flags; game-defined
registrations for integer payload kinds carry their combine function
`(survivingValue, outgoingValue) ↦ newValue`. -/
structure EffectMergeRegistry where
  lifetimeReg : Bool
  delayReg : Bool
  stacksReg : Bool
  custom : List (ℕ × (ℤ → ℤ → ℤ))

/-- `EffectMergeRegistry::default()`: empty registry. -/
def EffectMergeRegistry.default : EffectMergeRegistry := ⟨false, false, false, []⟩

/-- `register_timer_merge_functions` (src/timer.rs): registers
`merge_timer::<Lifetime>` and `merge_timer::<Delay>`. -/
def register_timer_merge_functions (r : EffectMergeRegistry) : EffectMergeRegistry :=
  { r with lifetimeReg := true, delayReg := true }

/-- `StackPlugin::build` (src/component/stack.rs): registers `merge_effect_stacks`. -/
def register_stack_merge (r : EffectMergeRegistry) : EffectMergeRegistry :=
  { r with stacksReg := true }

/-- The ECS world state the effect engine reads and writes: entities (assoc
list id ↦ components, in spawn order), the fresh-id counter, the optional
`EffectMergeRegistry` resource, and whether the missing-registry warning has
fired (`warn_once!`). -/
structure World where
  entities : List (ℕ × EffectEntity)
  nextId : ℕ
  registry : Option EffectMergeRegistry
  warnedOnce : Bool

/-- `world.get::<...>(e)`: look up an entity by id. -/
def World.get (w : World) (e : ℕ) : Option EffectEntity :=
  (w.entities.find? (fun p => p.1 == e)).map (fun p => p.2)

/-- Mutate the components of entity `e` in place. -/
def World.updateEntity (w : World) (e : ℕ) (f : EffectEntity → EffectEntity) : World :=
  { w with entities := w.entities.map (fun p => if p.1 == e then (p.1, f p.2) else p) }

/-- `world.despawn(e)`. -/
def World.despawn (w : World) (e : ℕ) : World :=
  { w with entities := w.entities.filter (fun p => p.1 != e) }

/-- Modelled from the spec: the `Effecting`/`EffectedBy` relationship pair is
declared in `relation.rs`, which is not among the provided sources. Spec §4.4
invariant: the relation set for a target always equals exactly the effect
entities whose back-reference points to that target, and the `EffectedBy`
component is absent from the target precisely when that set is empty. -/
def World.effectedBy (w : World) (target : ℕ) : Option (List ℕ) :=
  let l := (w.entities.filter (fun p => p.2.effecting == some target)).map (fun p => p.1)
  if l.isEmpty then none else some l

/-- `AddEffectCommand` (src/command.rs): apply `bundle` to `target`. -/
structure AddEffectCommand where
  target : ℕ
  bundle : EffectBundle

/-- The component writes performed by `AddEffectCommand::insert`:
`entity.insert((Effecting(target), name, mode, bundle))` — every component in
the inserted bundle overwrites the same-kind component on the entity, and
entity components not present in the bundle survive (ECS insert semantics). -/
def EffectBundle.insertInto (b : EffectBundle) (target : ℕ) (ent : EffectEntity) : EffectEntity :=
  { ent with
    effecting := some target
    name := some b.name
    mode := some b.mode
    lifetime := match b.lifetime with | some l => some l | none => ent.lifetime
    delay := match b.delay with | some d => some d | none => ent.delay
    effectStacks := match b.effectStacks with | some s => some s | none => ent.effectStacks
    payload := insertPayload ent.payload b.payload }

/-- `AddEffectCommand::insert` (src/command.rs lines 31–38). -/
def AddEffectCommand.insert (cmd : AddEffectCommand) (w : World) (e : ℕ) : World :=
  w.updateEntity e (cmd.bundle.insertInto cmd.target)

/-- `AddEffectCommand::spawn` (src/command.rs lines 24–29): spawn an empty
entity, then insert the bundle into it. -/
def AddEffectCommand.spawn (cmd : AddEffectCommand) (w : World) : World × ℕ :=
  let id := w.nextId
  let w1 : World :=
    { w with entities := w.entities ++ [(id, EffectEntity.empty)], nextId := w.nextId + 1 }
  (cmd.insert w1 id, id)

/-- The body of `merge_timer::<Lifetime>`: read the outgoing entity's
`Lifetime`, then `new.get_mut::<Lifetime>().unwrap().merge(&outgoing)`.
The source unwraps; in the pipeline the new entity always retains the old
component, so the `none` arm is unreachable there. -/
def merge_timer_lifetime (w : World) (newE : ℕ) (outgoing : Lifetime) : World :=
  w.updateEntity newE (fun ent =>
    match ent.lifetime with
    | some l => { ent with lifetime := some (l.merge outgoing) }
    | none => ent)

/-- The body of `merge_timer::<Delay>`. -/
def merge_timer_delay (w : World) (newE : ℕ) (outgoing : Delay) : World :=
  w.updateEntity newE (fun ent =>
    match ent.delay with
    | some d => { ent with delay := some (d.merge outgoing) }
    | none => ent)

/-- The body of `merge_effect_stacks` acting on the world: add the outgoing
entity's count onto the surviving entity's count. -/
def merge_stacks_world (w : World) (newE : ℕ) (outgoing : ℕ) : World :=
  w.updateEntity newE (fun ent =>
    match ent.effectStacks with
    | some s => { ent with effectStacks := some (merge_effect_stacks s outgoing) }
    | none => ent)

/-- Step 3 of `AddEffectCommand::merge`: for every registered component kind
present on the temp (old) entity's archetype, run its merge function against
the new entity. The source collects the functions from the archetype in
unspecified order; each registered kind touches a distinct component, so we
fix the order lifetime, delay, stacks, then custom kinds in registration
order. -/
def runMerges (w : World) (newE : ℕ) (tempEnt : EffectEntity)
    (registry : EffectMergeRegistry) : World :=
  let w1 := match tempEnt.lifetime with
    | some l => merge_timer_lifetime w newE l
    | none => w
  let w2 := match tempEnt.delay with
    | some d => merge_timer_delay w1 newE d
    | none => w1
  let w3 := match tempEnt.effectStacks with
    | some s => merge_stacks_world w2 newE s
    | none => w2
  registry.custom.foldl (fun acc c =>
    match getComp tempEnt.payload c.1 with
    | some oldV =>
        acc.updateEntity newE (fun ent =>
          match getComp ent.payload c.1 with
          | some newV => { ent with payload := setComp ent.payload c.1 (c.2 newV oldV) }
          | none => ent)
    | none => acc) w3

/-- `AddEffectCommand::merge` (src/command.rs lines 47–100). When no
`EffectMergeRegistry` resource exists, `warn_once!` fires and the function
returns — before `self.insert` runs, so the incoming bundle is dropped.
Otherwise: (1) spawn a disabled temp entity and clone the existing entity's
registered components onto it, (2) insert the new bundle into the existing
entity, (3) run the registered merge functions for the components on the temp
entity, (4) despawn the temp entity. -/
def AddEffectCommand.merge (cmd : AddEffectCommand) (w : World) (existing_entity : ℕ) : World :=
  match w.registry with
  | none => { w with warnedOnce := true }
  | some registry =>
      let oldSrc := (w.get existing_entity).getD EffectEntity.empty
      let tempEnt : EffectEntity :=
        { EffectEntity.empty with
          disabled := true
          lifetime := if registry.lifetimeReg then oldSrc.lifetime else none
          delay := if registry.delayReg then oldSrc.delay else none
          effectStacks := if registry.stacksReg then oldSrc.effectStacks else none
          payload := oldSrc.payload.filter
            (fun p => registry.custom.any (fun c => c.1 == p.1)) }
      let temp := w.nextId
      let w1 : World :=
        { w with entities := w.entities ++ [(temp, tempEnt)], nextId := w.nextId + 1 }
      let w2 := cmd.insert w1 existing_entity
      let w3 := runMerges w2 existing_entity tempEnt registry
      w3.despawn temp

/-- The match search inside `Command::apply` (src/command.rs lines 121–138):
find an entity in the target's relation set whose `EffectMode` equals the
incoming mode and whose `Name` equals the incoming name. -/
def findOldEntity (w : World) (cmd : AddEffectCommand) (effected_by : List ℕ) : Option ℕ :=
  effected_by.findSome? (fun e =>
    match w.get e with
    | none => none
    | some ent =>
        match ent.mode with
        | none => none
        | some other_mode =>
            if cmd.bundle.mode ≠ other_mode then none
            else
              match ent.name with
              | some name => if name = cmd.bundle.name then some e else none
              | none => none)

/-- `Command::apply` for `AddEffectCommand` (src/command.rs lines 104–150). -/
def AddEffectCommand.apply (cmd : AddEffectCommand) (w : World) : World :=
  if cmd.bundle.mode = .Stack then (cmd.spawn w).1
  else
    match w.effectedBy cmd.target with
    | none => (cmd.spawn w).1
    | some effected_by =>
        match findOldEntity w cmd effected_by with
        | none => (cmd.spawn w).1
        | some old_entity =>
            match cmd.bundle.mode with
            | .Stack => w
            | .Insert => cmd.insert w old_entity
            | .Merge => cmd.merge w old_entity

/-- The per-entity body of `despawn_finished_lifetimes`: tick the `Lifetime`
timer by the frame delta and drop the entity (`commands.entity(e).despawn()`)
when the ticked timer is finished. Disabled entities and entities without a
`Lifetime` are not in the query and are untouched. -/
def lifetimeStep (delta : ℚ) (p : ℕ × EffectEntity) : Option (ℕ × EffectEntity) :=
  if p.2.disabled then some p
  else
    match p.2.lifetime with
    | none => some p
    | some l =>
        let l' : Lifetime := { l with timer := l.timer.tick delta }
        if l'.timer.is_finished then none
        else some (p.1, { p.2 with lifetime := some l' })

/-- `despawn_finished_lifetimes` (src/timer.rs lines 159–171). -/
def despawn_finished_lifetimes (w : World) (delta : ℚ) : World :=
  { w with entities := w.entities.filterMap (lifetimeStep delta) }

/-- The per-entity body of `tick_delay`: tick the `Delay` timer by the frame
delta. Disabled entities and entities without a `Delay` are not in the query. -/
def delayStep (delta : ℚ) (p : ℕ × EffectEntity) : ℕ × EffectEntity :=
  if p.2.disabled then p
  else
    match p.2.delay with
    | none => p
    | some d => (p.1, { p.2 with delay := some { d with timer := d.timer.tick delta } })

/-- `tick_delay` (src/timer.rs lines 173–177): never despawns anything. -/
def tick_delay (w : World) (delta : ℚ) : World :=
  { w with entities := w.entities.map (delayStep delta) }

/-- `TimerPlugin::build` (src/timer.rs lines 14–19): the per-frame maintenance
schedule `(despawn_finished_lifetimes, tick_delay).chain()` — the lifetime
step runs first, then the delay step. -/
def timerPluginFrame (w : World) (delta : ℚ) : World :=
  tick_delay (despawn_finished_lifetimes w delta) delta

/-- The registry as set up by `AlchemyPlugin::build` plus `StackPlugin`:
`init_resource::<EffectMergeRegistry>()` followed by the `TimerPlugin` and
`StackPlugin` registrations. -/
def pluginRegistry : EffectMergeRegistry :=
  register_stack_merge (register_timer_merge_functions EffectMergeRegistry.default)

/-- A fresh world right after plugin setup: no entities, registry initialized. -/
def emptyW : World := ⟨[], 0, some pluginRegistry, false⟩

/-- The number of effect instances on `target` carrying identity `name`. -/
def countEffects (w : World) (target : ℕ) (name : String) : ℕ :=
  (w.entities.filter (fun p =>
    p.2.effecting == some target && p.2.name == some name)).length

/-- Apply the same effect command `n` times (each full command runs to
completion before the next, as in the command-flush phase). -/
def applyN (cmd : AddEffectCommand) : ℕ → World → World
  | 0, w => w
  | n + 1, w => applyN cmd n (cmd.apply w)

/-- C1 input: a world with no `EffectMergeRegistry` resource whose entity 0 is
a Merge-mode "poison" effect on target 5 with payload component 0 ↦ 1. -/
def c1world : World :=
  ⟨[(0, { EffectEntity.empty with
           effecting := some 5
           name := some "poison"
           mode := some EffectMode.Merge
           payload := [(0, 1)] })],
   1, none, false⟩

/-- C1 input: a Merge-mode "poison" bundle for target 5 carrying payload
component 0 ↦ 9. -/
def c1cmd : AddEffectCommand :=
  ⟨5, ⟨"poison", .Merge, none, none, none, [(0, 9)]⟩⟩

/-- C2 inputs: two Insert-mode applications of identity "p" to target 5; the
first bundle carries payload components 0 ↦ 1 and 1 ↦ 2, the second only 0 ↦ 3. -/
def c2cmd1 : AddEffectCommand := ⟨5, ⟨"p", .Insert, none, none, none, [(0, 1), (1, 2)]⟩⟩

/-- C2 input: the second Insert-mode application. -/
def c2cmd2 : AddEffectCommand := ⟨5, ⟨"p", .Insert, none, none, none, [(0, 3)]⟩⟩

/-- C3 input: a world (registry initialized) whose entity 0 is a Merge-mode
"poison" effect on target 5 carrying a Sum-mode 2-second lifetime. -/
def c3world : World :=
  ⟨[(0, { EffectEntity.empty with
           effecting := some 5
           name := some "poison"
           mode := some EffectMode.Merge
           lifetime := some ((Lifetime.from_seconds 2).with_mode .Sum) })],
   1, some pluginRegistry, false⟩

/-- C3 input: an incoming Merge-mode "poison" bundle for target 5 that carries
no lifetime and no delay timer. -/
def c3cmd : AddEffectCommand :=
  ⟨5, ⟨"poison", .Merge, none, none, none, []⟩⟩

/-- C9 input: entity 0 has a 1-second lifetime, entity 1 has a 2-second delay. -/
def c9lt : Lifetime := Lifetime.from_seconds 1

/-- C9 input: the world holding the two entities. -/
def c9world : World :=
  ⟨[(0, { EffectEntity.empty with effecting := some 7, lifetime := some c9lt }),
    (1, { EffectEntity.empty with effecting := some 7, delay := some (Delay.from_seconds 2) })],
   2, some pluginRegistry, false⟩

/-- Claim C10 (confirmed): `merge_effect_stacks` adds the outgoing count onto
the surviving count with unchecked `u8` addition — exact when the sum fits in
255, wrapping modulo 2^8 (not saturating or clamping at 255) when it does not. -/
theorem C10_stacks_unchecked_add (a b : ℕ) (ha : a ≤ 255) (hb : b ≤ 255) :
    merge_effect_stacks a b = (a + b) % 256
    ∧ (a + b ≤ 255 → merge_effect_stacks a b = a + b)
    ∧ (255 < a + b → merge_effect_stacks a b = a + b - 256
        ∧ merge_effect_stacks a b ≠ 255 ∧ merge_effect_stacks a b < a + b) := by
  unfold merge_effect_stacks EffectStacks.add_assign
  refine ⟨rfl, fun h => ?_, fun h => ?_⟩ <;> omega

/-- Witness for C10 at surviving count 200 and outgoing count 100: the result
wraps to 44 rather than clamping at 255. -/
theorem C10_stacks_unchecked_add_witness :
    merge_effect_stacks 200 100 = 200 + 100 - 256 ∧ merge_effect_stacks 200 100 ≠ 255 :=
  ⟨((C10_stacks_unchecked_add 200 100 (by decide) (by decide)).2.2 (by decide)).1,
   ((C10_stacks_unchecked_add 200 100 (by decide) (by decide)).2.2 (by decide)).2.1⟩

/-- Claim C4 counterexample: the merge-mode tag never transfers from the old
timer. Under `Keep`, merging a Keep-tagged 2s timer with an old Sum-tagged 1s
timer keeps the inner timer of the old side but the tag `Keep`, so the result
does not equal the old timer's state; under `Max` with the old side strictly
greater (3s vs 2s remaining), the old side's inner timer wins but its tag
(`Keep`) is discarded, so the old timer does not win "in full". -/
theorem C4_counterexample :
    (((Lifetime.from_seconds 2).with_mode .Keep).mode = .Keep
      ∧ ((Lifetime.from_seconds 2).with_mode .Keep).merge
          ((Lifetime.from_seconds 1).with_mode .Sum)
          ≠ (Lifetime.from_seconds 1).with_mode .Sum)
    ∧ (((Lifetime.from_seconds 2).with_mode .Max).mode = .Max
      ∧ ((Lifetime.from_seconds 2).with_mode .Max).timer.remaining_secs
          < ((Lifetime.from_seconds 3).with_mode .Keep).timer.remaining_secs
      ∧ ((Lifetime.from_seconds 2).with_mode .Max).merge
          ((Lifetime.from_seconds 3).with_mode .Keep)
          ≠ (Lifetime.from_seconds 3).with_mode .Keep) := by
  norm_num [Lifetime.from_seconds, Lifetime.new, Lifetime.default, Lifetime.with_mode,
    Timer.new, Lifetime.merge, Timer.remaining_secs, Lifetime.mk.injEq, Timer.mk.injEq]
  exact ⟨by decide, by decide⟩

/-- Claim C4 as amended (proved): under `Keep` the old timer's inner countdown
timer entirely survives as the result's inner timer, and under `Max` the inner
timer with the strictly greater remaining time wins (the persisting side wins
ties); in both cases the result's merge-mode tag is the persisting (self)
timer's tag, not the winning side's. Stated for both timer roles. -/
theorem C4_keep_max (self other : Lifetime) (ds dother : Delay) :
    ((self.mode = .Keep →
        (self.merge other).timer = other.timer ∧ (self.merge other).mode = .Keep)
      ∧ (self.mode = .Max →
        (self.merge other).timer =
          (if self.timer.remaining_secs < other.timer.remaining_secs
           then other.timer else self.timer)
        ∧ (self.merge other).mode = .Max))
    ∧ ((ds.mode = .Keep →
        (ds.merge dother).timer = dother.timer ∧ (ds.merge dother).mode = .Keep)
      ∧ (ds.mode = .Max →
        (ds.merge dother).timer =
          (if ds.timer.remaining_secs < dother.timer.remaining_secs
           then dother.timer else ds.timer)
        ∧ (ds.merge dother).mode = .Max)) := by
  refine ⟨⟨fun h => ?_, fun h => ?_⟩, ⟨fun h => ?_, fun h => ?_⟩⟩
  · simp [Lifetime.merge, h]
  · refine ⟨?_, ?_⟩
    · simp only [Lifetime.merge, h]
      split <;> rfl
    · simp only [Lifetime.merge, h]
      split <;> simp [h]
  · simp [Delay.merge, h]
  · refine ⟨?_, ?_⟩
    · simp only [Delay.merge, h]
      split <;> rfl
    · simp only [Delay.merge, h]
      split <;> simp [h]

/-- Witness for C4 at a Keep-tagged 2s persisting timer and a Sum-tagged 1s
old timer: the old inner timer survives. -/
theorem C4_keep_max_witness :
    (((Lifetime.from_seconds 2).with_mode .Keep).merge
        ((Lifetime.from_seconds 1).with_mode .Sum)).timer
      = ((Lifetime.from_seconds 1).with_mode .Sum).timer :=
  ((C4_keep_max ((Lifetime.from_seconds 2).with_mode .Keep)
      ((Lifetime.from_seconds 1).with_mode .Sum)
      (Delay.from_seconds 1) (Delay.from_seconds 1)).1.1 rfl).1

/-- Claim C5 (confirmed): under `Sum` the merged timer's total duration is the
sum of the two total durations and its elapsed value is the persisting (self)
side's elapsed value; concretely, merging 1s and 3s Sum-mode timers and then
merging the result into a fresh 2s Sum-mode timer yields total duration 6s. -/
theorem C5_sum (self other : Lifetime) (ds dother : Delay) :
    (self.mode = .Sum →
      (self.merge other).timer.duration = other.timer.duration + self.timer.duration
      ∧ (self.merge other).timer.elapsed = self.timer.elapsed
      ∧ (self.merge other).mode = .Sum)
    ∧ (ds.mode = .Sum →
      (ds.merge dother).timer.duration = dother.timer.duration + ds.timer.duration
      ∧ (ds.merge dother).timer.elapsed = ds.timer.elapsed)
    ∧ ((((Lifetime.from_seconds 2).with_mode .Sum).merge
          ((((Lifetime.from_seconds 3).with_mode .Sum)).merge
            ((Lifetime.from_seconds 1).with_mode .Sum))).timer.duration = 6) := by
  refine ⟨fun h => ?_, fun h => ?_,
    by norm_num [Lifetime.merge, Lifetime.from_seconds, Lifetime.new, Lifetime.default,
      Lifetime.with_mode, Timer.new, Timer.set_duration]⟩
  · simp [Lifetime.merge, h, Timer.set_duration]
  · simp [Delay.merge, h, Timer.set_duration]

/-- Witness for C5 at a fresh Sum-mode 2s persisting timer and a Sum-mode 3s
old timer: the merged duration is 3 + 2. -/
theorem C5_sum_witness :
    ((((Lifetime.from_seconds 2).with_mode .Sum).merge
        ((Lifetime.from_seconds 3).with_mode .Sum)).timer.duration
      = ((Lifetime.from_seconds 3).with_mode .Sum).timer.duration
        + ((Lifetime.from_seconds 2).with_mode .Sum).timer.duration) :=
  ((C5_sum ((Lifetime.from_seconds 2).with_mode .Sum)
      ((Lifetime.from_seconds 3).with_mode .Sum)
      (Delay.from_seconds 1) (Delay.from_seconds 1)).1 rfl).1

/-- Claim C6 counterexample: with a persisting Fraction-mode timer of total
duration 0 and an old timer at 50% elapsed, the merge keeps duration 0 and
sets elapsed to 0, whose `fraction` is 1 — not the old timer's 1/2. The claim
fails at zero total duration. -/
theorem C6_counterexample :
    ((Lifetime.from_seconds 0).with_mode .Fraction).mode = .Fraction
    ∧ (⟨(Timer.new 2 .Once).set_elapsed 1, .Fraction⟩ : Lifetime).timer.fraction = 1 / 2
    ∧ (((Lifetime.from_seconds 0).with_mode .Fraction).merge
        ⟨(Timer.new 2 .Once).set_elapsed 1, .Fraction⟩).timer.duration
       = ((Lifetime.from_seconds 0).with_mode .Fraction).timer.duration
    ∧ (((Lifetime.from_seconds 0).with_mode .Fraction).merge
        ⟨(Timer.new 2 .Once).set_elapsed 1, .Fraction⟩).timer.fraction
       ≠ (⟨(Timer.new 2 .Once).set_elapsed 1, .Fraction⟩ : Lifetime).timer.fraction := by
  norm_num [Lifetime.from_seconds, Lifetime.new, Lifetime.default, Lifetime.with_mode,
    Timer.new, Timer.set_elapsed, Timer.fraction, Lifetime.merge]

/-- Claim C6 as amended (proved): under `Fraction`, provided the persisting
(new) timer's total duration is positive, the result keeps the new total
duration and its elapsed time is set to the old fraction times that duration,
so its `fraction` equals the old timer's fraction; concretely, a fresh 2s
timer merged with an old timer at 50% elapsed ends at elapsed = 1s. -/
theorem C6_fraction (self other : Lifetime) (ds dother : Delay) :
    (self.mode = .Fraction → 0 < self.timer.duration →
      (self.merge other).timer.duration = self.timer.duration
      ∧ (self.merge other).timer.elapsed = other.timer.fraction * self.timer.duration
      ∧ (self.merge other).timer.fraction = other.timer.fraction)
    ∧ (ds.mode = .Fraction → 0 < ds.timer.duration →
      (ds.merge dother).timer.fraction = dother.timer.fraction)
    ∧ ((((Lifetime.from_seconds 2).with_mode .Fraction).merge
          ⟨(Timer.new 2 .Once).set_elapsed 1, .Fraction⟩).timer.elapsed = 1) := by
  refine ⟨fun h hd => ?_, fun h hd => ?_,
    by norm_num [Lifetime.merge, Lifetime.from_seconds, Lifetime.new, Lifetime.default,
      Lifetime.with_mode, Timer.new, Timer.set_elapsed, Timer.fraction]⟩
  · have hne : self.timer.duration ≠ 0 := ne_of_gt hd
    refine ⟨?_, ?_, ?_⟩
    · simp [Lifetime.merge, h, Timer.set_elapsed]
    · simp [Lifetime.merge, h, Timer.set_elapsed]
    · simp only [Lifetime.merge, h, Timer.set_elapsed, Timer.fraction]
      simp only [hne, if_false]
      split
      · rw [one_mul]
        exact div_self hne
      · exact mul_div_cancel_right₀ _ hne
  · have hne : ds.timer.duration ≠ 0 := ne_of_gt hd
    simp only [Delay.merge, h, Timer.set_elapsed, Timer.fraction]
    simp only [hne, if_false]
    split
    · rw [one_mul]
      exact div_self hne
    · exact mul_div_cancel_right₀ _ hne

/-- Witness for C6 at a fresh Fraction-mode 2s persisting timer and an old
timer at 50% elapsed: the result's fraction equals the old fraction. -/
theorem C6_fraction_witness :
    ((((Lifetime.from_seconds 2).with_mode .Fraction).merge
        ⟨(Timer.new 2 .Once).set_elapsed 1, .Fraction⟩).timer.fraction
      = (⟨(Timer.new 2 .Once).set_elapsed 1, .Fraction⟩ : Lifetime).timer.fraction) :=
  ((C6_fraction ((Lifetime.from_seconds 2).with_mode .Fraction)
      ⟨(Timer.new 2 .Once).set_elapsed 1, .Fraction⟩
      (Delay.from_seconds 1) (Delay.from_seconds 1)).1 rfl (by decide)).2.2

/-- Claim C1 as amended (proved): a Merge-mode merge step in a world with no
`EffectMergeRegistry` resource emits the one-time warning and returns before
`insert` runs — the entity table is completely unchanged (the incoming bundle
is dropped, not written), and execution continues normally. -/
theorem C1_no_registry_drops_bundle (cmd : AddEffectCommand) (w : World) (ex : ℕ)
    (h : w.registry = none) :
    cmd.merge w ex = { w with warnedOnce := true } := by
  simp [AddEffectCommand.merge, h]

/-- Witness for C1 at the concrete registry-less world: the merge only sets
the warning flag. -/
theorem C1_no_registry_drops_bundle_witness :
    c1cmd.merge c1world 0 = { c1world with warnedOnce := true } :=
  C1_no_registry_drops_bundle c1cmd c1world 0 rfl

/-- Claim C1 counterexample: in a registry-less world, a Merge-mode
application to target 5 — which has a matching "poison" instance (entity 0)
carrying payload 0 ↦ 1 — leaves every entity unchanged: the incoming payload
0 ↦ 9 is not written, so the application is not a "pure overwrite"; only the
one-time warning fires. -/
theorem C1_counterexample :
    c1world.registry.isNone = true
    ∧ (AddEffectCommand.apply c1cmd c1world).entities = c1world.entities
    ∧ ((AddEffectCommand.apply c1cmd c1world).get 0).bind (fun e => getComp e.payload 0)
        = some 1
    ∧ c1cmd.bundle.payload = [(0, 9)]
    ∧ (AddEffectCommand.apply c1cmd c1world).warnedOnce = true := by decide

/-- Claim C3 (code bug, evaluated at the failing input): the existing "poison"
effect on target 5 carries a Sum-mode 2-second lifetime; the incoming
Merge-mode bundle carries no lifetime at all, yet after the application the
lifetime's total duration is 4 seconds — the pipeline cloned the old
`Lifetime` to the temp entity and ran the registered timer merge with the old
timer on both sides, doubling the duration instead of skipping the merge. -/
theorem C3_absent_incoming_timer_still_merges :
    c3cmd.bundle.lifetime = none
    ∧ ((c3world.get 0).bind (fun e => e.lifetime.map (fun l => l.timer.duration)))
        = some 2
    ∧ (((AddEffectCommand.apply c3cmd c3world).get 0).bind
        (fun e => e.lifetime.map (fun l => l.timer.duration))) = some 4 := by
  refine ⟨rfl, rfl, ?_⟩
  norm_num [AddEffectCommand.apply, AddEffectCommand.merge, AddEffectCommand.insert,
    AddEffectCommand.spawn, World.effectedBy, findOldEntity, runMerges,
    merge_timer_lifetime, merge_timer_delay, merge_stacks_world, World.updateEntity,
    World.despawn, World.get, EffectBundle.insertInto, insertPayload,
    c3cmd, c3world, pluginRegistry, register_stack_merge, register_timer_merge_functions,
    EffectMergeRegistry.default, EffectEntity.empty, Lifetime.merge, Lifetime.from_seconds,
    Lifetime.new, Lifetime.default, Lifetime.with_mode, Timer.new, Timer.set_duration,
    getComp, setComp, List.filter, List.findSome?, List.filterMap, List.isEmpty,
    List.find?, decide_eq_true_eq]

/-- A payload lookup misses exactly when no component of that kind is present. -/
theorem getComp_eq_none_iff (p : List (ℕ × ℤ)) (k : ℕ) :
    getComp p k = none ↔ ∀ q ∈ p, q.1 ≠ k := by
  simp [getComp, List.find?_eq_none]

/-- Characterization of a single-component ECS insert: the inserted kind now reads
the new value; every other kind is untouched. -/
theorem getComp_setComp (l : List (ℕ × ℤ)) (k : ℕ) (v : ℤ) (k' : ℕ) :
    getComp (setComp l k v) k' = if k' = k then some v else getComp l k' := by
  unfold getComp setComp
  split
  · next hany =>
    rw [List.find?_map]
    by_cases hk : k' = k
    · subst hk
      have hpred : ((fun p : ℕ × ℤ => p.1 == k') ∘ fun p => if p.1 == k' then (k', v) else p)
          = fun p => p.1 == k' := by
        funext p
        by_cases hp : p.1 = k' <;> simp [hp]
      rw [hpred]
      simp only [List.any_eq_true, beq_iff_eq] at hany
      obtain ⟨q, hq, hqk⟩ := hany
      have hsome : (l.find? fun p => p.1 == k').isSome :=
        List.find?_isSome.mpr ⟨q, hq, by simpa using hqk⟩
      obtain ⟨a, ha⟩ := Option.isSome_iff_exists.mp hsome
      have hak : a.1 = k' := by simpa using List.find?_some ha
      simp [ha, hak]
    · have hpred : ((fun p : ℕ × ℤ => p.1 == k') ∘ fun p => if p.1 == k then (k, v) else p)
          = fun p => p.1 == k' := by
        funext p
        by_cases hp : p.1 = k <;> simp [hp, hk, Ne.symm hk]
      rw [hpred]
      cases hfa : l.find? (fun p => p.1 == k') with
      | none => simp [hk]
      | some a =>
          have hak : a.1 = k' := by simpa using List.find?_some hfa
          simp [hk, hak]
  · next hany =>
    rw [List.find?_append]
    by_cases hk : k' = k
    · subst hk
      have hnone : l.find? (fun p => p.1 == k') = none := by
        rw [List.find?_eq_none]
        intro x hx hc
        exact hany (List.any_eq_true.mpr ⟨x, hx, hc⟩)
      simp [hnone]
    · have h2 : [(k, v)].find? (fun p => p.1 == k') = none := by
        simp [List.find?_cons, Ne.symm hk]
      cases hfa : l.find? (fun p => p.1 == k') with
      | none => simp [h2, hk]
      | some a => simp [h2, hk]

/-- Bundle-insert semantics, absent kind: a component kind not present in the
inserted bundle keeps its previous value. -/
theorem getComp_insertPayload_of_none (p : List (ℕ × ℤ)) (k : ℕ) :
    ∀ q, getComp p k = none → getComp (insertPayload q p) k = getComp q k := by
  induction p with
  | nil => intro q _; rfl
  | cons x tl ih =>
      intro q h
      have hx : x.1 ≠ k := by
        intro hc
        simp [getComp, List.find?_cons_of_pos, hc] at h
      have htl : getComp tl k = none := by
        simpa [getComp, List.find?_cons_of_neg, hx] using h
      show getComp (insertPayload (setComp q x.1 x.2) tl) k = getComp q k
      rw [ih _ htl, getComp_setComp]
      exact if_neg fun hc => hx hc.symm

/-- Bundle-insert semantics, present kind: a component kind present in the
inserted bundle (bundles have no duplicate kinds) reads the bundle's value. -/
theorem getComp_insertPayload_of_some (p : List (ℕ × ℤ)) (k : ℕ) :
    ∀ q v, (p.map Prod.fst).Nodup → getComp p k = some v →
      getComp (insertPayload q p) k = some v := by
  induction p with
  | nil =>
      intro q v _ h
      simp [getComp] at h
  | cons x tl ih =>
      intro q v hnd h
      rw [List.map_cons] at hnd
      have hnd' := List.nodup_cons.mp hnd
      by_cases hx : x.1 = k
      · have hv : x.2 = v := by
          simpa [getComp, List.find?_cons_of_pos, hx] using h
        have hnotin : getComp tl k = none := by
          rw [getComp_eq_none_iff]
          intro q hq hqk
          apply hnd'.1
          rw [hx, ← hqk]
          exact List.mem_map_of_mem Prod.fst hq
        show getComp (insertPayload (setComp q x.1 x.2) tl) k = some v
        rw [getComp_insertPayload_of_none tl k _ hnotin, getComp_setComp,
          if_pos hx.symm, hv]
      · have htl : getComp tl k = some v := by
          simpa [getComp, List.find?_cons_of_neg, hx] using h
        exact ih _ _ hnd'.2 htl

/-- Claim C2 as amended (proved): after two Insert-mode applications with the
same target and identity, exactly one effect instance exists; its state is the
second bundle inserted over the first application's state — components present
in the second bundle carry its values, while components present only in the
first application survive (ECS insert overwrites only what the incoming bundle
contains); the lifetime/delay values are carried verbatim from one of the two
bundles, with no timer-merge arithmetic. -/
theorem C2_insert_pair (t : ℕ) (n : String) (l1 l2 : Option Lifetime)
    (d1 d2 : Option Delay) (s1 s2 : Option ℕ) (p1 p2 : List (ℕ × ℤ)) :
    (AddEffectCommand.apply ⟨t, ⟨n, .Insert, l2, d2, s2, p2⟩⟩
        (AddEffectCommand.apply ⟨t, ⟨n, .Insert, l1, d1, s1, p1⟩⟩ emptyW)).entities
      = [(0, EffectBundle.insertInto ⟨n, .Insert, l2, d2, s2, p2⟩ t
              (EffectBundle.insertInto ⟨n, .Insert, l1, d1, s1, p1⟩ t EffectEntity.empty))]
    ∧ countEffects
        (AddEffectCommand.apply ⟨t, ⟨n, .Insert, l2, d2, s2, p2⟩⟩
          (AddEffectCommand.apply ⟨t, ⟨n, .Insert, l1, d1, s1, p1⟩⟩ emptyW)) t n = 1
    ∧ (EffectBundle.insertInto ⟨n, .Insert, l2, d2, s2, p2⟩ t
        (EffectBundle.insertInto ⟨n, .Insert, l1, d1, s1, p1⟩ t EffectEntity.empty)).payload
      = insertPayload (insertPayload [] p1) p2
    ∧ (EffectBundle.insertInto ⟨n, .Insert, l2, d2, s2, p2⟩ t
        (EffectBundle.insertInto ⟨n, .Insert, l1, d1, s1, p1⟩ t EffectEntity.empty)).lifetime
      = (match l2 with | some l => some l | none => l1)
    ∧ (EffectBundle.insertInto ⟨n, .Insert, l2, d2, s2, p2⟩ t
        (EffectBundle.insertInto ⟨n, .Insert, l1, d1, s1, p1⟩ t EffectEntity.empty)).delay
      = (match d2 with | some d => some d | none => d1)
    ∧ (∀ k, getComp p2 k = none →
        getComp (insertPayload (insertPayload [] p1) p2) k
          = getComp (insertPayload [] p1) k)
    ∧ (∀ k v, (p2.map Prod.fst).Nodup → getComp p2 k = some v →
        getComp (insertPayload (insertPayload [] p1) p2) k = some v) := by
  refine ⟨?_, ?_, rfl, by cases l2 <;> try rfl
                          cases l1 <;> rfl,
    by cases d2 <;> try rfl
       cases d1 <;> rfl,
    fun k hk => getComp_insertPayload_of_none p2 k _ hk,
    fun k v hnd hk => getComp_insertPayload_of_some p2 k _ v hnd hk⟩
  · simp [AddEffectCommand.apply, AddEffectCommand.spawn, AddEffectCommand.insert,
      World.effectedBy, findOldEntity, World.updateEntity, World.get, emptyW,
      EffectBundle.insertInto, EffectEntity.empty, List.filter, List.findSome?,
      List.find?, List.isEmpty]
  · simp [AddEffectCommand.apply, AddEffectCommand.spawn, AddEffectCommand.insert,
      World.effectedBy, findOldEntity, World.updateEntity, World.get, emptyW,
      EffectBundle.insertInto, EffectEntity.empty, countEffects, List.filter,
      List.findSome?, List.find?, List.isEmpty]

/-- Claim C2 counterexample: first bundle carries payload components 0 ↦ 1 and
1 ↦ 2, second (same target/identity, Insert mode) carries only 0 ↦ 3; after the
second application one instance exists, but component kind 1 — present only in
the first bundle — still reads 2: the first application's payload is not wiped. -/
theorem C2_counterexample :
    countEffects (AddEffectCommand.apply c2cmd2 (AddEffectCommand.apply c2cmd1 emptyW)) 5 "p" = 1
    ∧ c2cmd2.bundle.payload = [(0, 3)]
    ∧ getComp c2cmd2.bundle.payload 1 = none
    ∧ ((AddEffectCommand.apply c2cmd2 (AddEffectCommand.apply c2cmd1 emptyW)).get 0).bind
        (fun e => getComp e.payload 1) = some 2 := by decide

/-- Witness for C2 at the concrete payload pair: kind 1 survives from the first
bundle, kind 0 reads the second bundle's value. -/
theorem C2_insert_pair_witness :
    getComp (insertPayload (insertPayload [] [(0, 1), (1, 2)]) [(0, 3)]) 1
        = getComp (insertPayload [] [(0, 1), (1, 2)]) 1
    ∧ getComp (insertPayload (insertPayload [] [(0, 1), (1, 2)]) [(0, 3)]) 0 = some 3 :=
  ⟨(C2_insert_pair 5 "p" none none none none none none [(0, 1), (1, 2)] [(0, 3)]).2.2.2.2.2.1
      1 (by decide),
   (C2_insert_pair 5 "p" none none none none none none [(0, 1), (1, 2)] [(0, 3)]).2.2.2.2.2.2
      0 3 (by decide) (by decide)⟩


/-- Updating a freshly appended entity rewrites only that entity when its id is
fresh for the rest of the table. -/
theorem map_update_append_fresh (l : List (ℕ × EffectEntity)) (k : ℕ) (a : EffectEntity)
    (f : EffectEntity → EffectEntity) (h : ∀ p ∈ l, p.1 ≠ k) :
    (l ++ [(k, a)]).map (fun p => if p.1 == k then (p.1, f p.2) else p)
      = l ++ [(k, f a)] := by
  induction l with
  | nil => simp
  | cons x tl ih =>
      simp only [List.cons_append, List.map_cons]
      rw [if_neg (by simpa using h x (List.mem_cons_self x tl)),
        ih fun p hp => h p (List.mem_cons_of_mem x hp)]

/-- Normal form of `AddEffectCommand::spawn` on a world whose next id is fresh:
append one entity holding the bundle inserted into an empty entity. -/
theorem spawn_eq (cmd : AddEffectCommand) (w : World)
    (h : ∀ p ∈ w.entities, p.1 ≠ w.nextId) :
    cmd.spawn w
      = ({ w with
            entities := w.entities
              ++ [(w.nextId, cmd.bundle.insertInto cmd.target EffectEntity.empty)],
            nextId := w.nextId + 1 }, w.nextId) := by
  have hm := map_update_append_fresh w.entities w.nextId EffectEntity.empty
    (cmd.bundle.insertInto cmd.target) h
  simp only [AddEffectCommand.spawn, AddEffectCommand.insert, World.updateEntity]
  rw [hm]

/-- Claim C7 (confirmed): a Stack-mode application unconditionally appends one
new effect instance carrying the bundle's payload, identity and mode with its
back-reference set to the target — independent of the target's existing
effects, so no search outcome can alter it — and N applications of the same
identity yield exactly N instances. -/
theorem C7_stack_always_spawns (t : ℕ) (b : EffectBundle) (w : World)
    (hb : b.mode = .Stack) (hw : ∀ p ∈ w.entities, p.1 < w.nextId) :
    AddEffectCommand.apply ⟨t, b⟩ w
      = { w with
          entities := w.entities ++ [(w.nextId, b.insertInto t EffectEntity.empty)],
          nextId := w.nextId + 1 }
    ∧ (b.insertInto t EffectEntity.empty).effecting = some t
    ∧ (b.insertInto t EffectEntity.empty).name = some b.name
    ∧ (b.insertInto t EffectEntity.empty).mode = some b.mode
    ∧ (b.insertInto t EffectEntity.empty).payload = insertPayload [] b.payload
    ∧ ∀ n : ℕ, countEffects (applyN ⟨t, b⟩ n w) t b.name
        = countEffects w t b.name + n := by
  have happly : ∀ w' : World, (∀ p ∈ w'.entities, p.1 < w'.nextId) →
      AddEffectCommand.apply ⟨t, b⟩ w'
        = { w' with
            entities := w'.entities ++ [(w'.nextId, b.insertInto t EffectEntity.empty)],
            nextId := w'.nextId + 1 } := by
    intro w' hw'
    have hfresh : ∀ p ∈ w'.entities, p.1 ≠ w'.nextId := fun p hp => Nat.ne_of_lt (hw' p hp)
    have hs := spawn_eq ⟨t, b⟩ w' hfresh
    simp [AddEffectCommand.apply, hb, hs]
  have hcount : ∀ w' : World, (∀ p ∈ w'.entities, p.1 < w'.nextId) →
      countEffects (AddEffectCommand.apply ⟨t, b⟩ w') t b.name
        = countEffects w' t b.name + 1 := by
    intro w' hw'
    rw [happly w' hw']
    simp [countEffects, List.filter_append, EffectBundle.insertInto]
  have hpres : ∀ w' : World, (∀ p ∈ w'.entities, p.1 < w'.nextId) →
      ∀ p ∈ (AddEffectCommand.apply ⟨t, b⟩ w').entities,
        p.1 < (AddEffectCommand.apply ⟨t, b⟩ w').nextId := by
    intro w' hw' p hp
    rw [happly w' hw'] at hp ⊢
    simp only [List.mem_append, List.mem_singleton] at hp
    rcases hp with hp | hp
    · exact Nat.lt_succ_of_lt (hw' p hp)
    · subst hp
      exact Nat.lt_succ_self _
  refine ⟨happly w hw, rfl, rfl, rfl, rfl, ?_⟩
  have main : ∀ n (w' : World), (∀ p ∈ w'.entities, p.1 < w'.nextId) →
      countEffects (applyN ⟨t, b⟩ n w') t b.name = countEffects w' t b.name + n := by
    intro n
    induction n with
    | zero => intro w' _; simp [applyN]
    | succ m ih =>
        intro w' hw'
        simp only [applyN]
        rw [ih _ (hpres w' hw'), hcount w' hw']
        omega
  exact fun n => main n w hw

theorem C7_stack_always_spawns_witness :
    countEffects (applyN ⟨3, ⟨"x", .Stack, none, none, none, []⟩⟩ 2 emptyW) 3 "x"
      = countEffects emptyW 3 "x" + 2 :=
  (C7_stack_always_spawns 3 ⟨"x", .Stack, none, none, none, []⟩ emptyW rfl
    (by simp [emptyW])).2.2.2.2.2 2

/-- Claim C8 (confirmed): in a non-Stack application, the search treats an
existing instance as a match only if its mode equals the incoming mode AND its
name equals the incoming identity; when the target has no relation set, or no
instance passes both tests, the command spawns a new effect instance (appended
to the table, mutating no existing entity). -/
theorem C8_match_needs_mode_and_name (cmd : AddEffectCommand) (w : World)
    (h : cmd.bundle.mode ≠ .Stack) :
    (∀ eb e, findOldEntity w cmd eb = some e →
      e ∈ eb ∧ ∃ ent, w.get e = some ent
        ∧ ent.mode = some cmd.bundle.mode ∧ ent.name = some cmd.bundle.name)
    ∧ (w.effectedBy cmd.target = none → cmd.apply w = (cmd.spawn w).1)
    ∧ (∀ eb, w.effectedBy cmd.target = some eb → findOldEntity w cmd eb = none →
        cmd.apply w = (cmd.spawn w).1)
    ∧ ((∀ p ∈ w.entities, p.1 ≠ w.nextId) →
        (cmd.spawn w).1.entities
          = w.entities ++ [(w.nextId, cmd.bundle.insertInto cmd.target EffectEntity.empty)]) := by
  refine ⟨?_, ?_, ?_, ?_⟩
  · intro eb e hfind
    rw [findOldEntity] at hfind
    obtain ⟨a, ha, hfa⟩ := List.exists_of_findSome?_eq_some hfind

    cases hga : w.get a with
    | none => rw [hga] at hfa; simp at hfa
    | some ent =>
        rw [hga] at hfa
        try dsimp only [] at hfa
        cases hm : ent.mode with
        | none => rw [hm] at hfa; simp at hfa
        | some m =>
            rw [hm] at hfa
            try dsimp only [] at hfa
            by_cases hmm : cmd.bundle.mode ≠ m
            · rw [if_pos hmm] at hfa; simp at hfa
            · rw [if_neg hmm] at hfa
              push_neg at hmm
              try dsimp only [] at hfa
              cases hn : ent.name with
              | none => rw [hn] at hfa; simp at hfa
              | some nm =>
                  rw [hn] at hfa
                  try dsimp only [] at hfa
                  by_cases hnm : nm = cmd.bundle.name
                  · rw [if_pos hnm] at hfa
                    obtain rfl : a = e := by simpa using hfa
                    exact ⟨ha, ent, hga, by rw [hm, hmm], by rw [hn, hnm]⟩
                  · rw [if_neg hnm] at hfa; simp at hfa
  · intro heb
    unfold AddEffectCommand.apply
    rw [if_neg h, heb]
  · intro eb heb hfind
    unfold AddEffectCommand.apply
    rw [if_neg h]
    simp only [heb, hfind]
  · intro hfresh
    rw [spawn_eq cmd w hfresh]

theorem C8_match_needs_mode_and_name_witness :
    AddEffectCommand.apply ⟨4, ⟨"q", .Insert, none, none, none, []⟩⟩ emptyW
      = (AddEffectCommand.spawn ⟨4, ⟨"q", .Insert, none, none, none, []⟩⟩ emptyW).1 :=
  (C8_match_needs_mode_and_name ⟨4, ⟨"q", .Insert, none, none, none, []⟩⟩ emptyW
    (by decide)).2.1 rfl
/-- The lifetime maintenance step never changes an entity's id. -/
theorem lifetimeStep_key (delta : ℚ) (p r : ℕ × EffectEntity)
    (h : lifetimeStep delta p = some r) : r.1 = p.1 := by
  unfold lifetimeStep at h
  split at h
  · cases h; rfl
  · split at h
    · cases h; rfl
    · dsimp only [] at h
      split at h
      · exact absurd h (by simp)
      · cases h; rfl

/-- In an entity table with no duplicate ids, an id determines its components. -/
theorem assoc_unique (l : List (ℕ × EffectEntity)) (hnd : (l.map Prod.fst).Nodup)
    (i : ℕ) (a b : EffectEntity) (ha : (i, a) ∈ l) (hb : (i, b) ∈ l) : a = b := by
  induction l with
  | nil => simp at ha
  | cons x tl ih =>
      rw [List.map_cons] at hnd
      have h' := List.nodup_cons.mp hnd
      rcases List.mem_cons.mp ha with ha0 | ha0 <;>
        rcases List.mem_cons.mp hb with hb0 | hb0
      · exact (Prod.ext_iff.mp (ha0.trans hb0.symm)).2
      · exfalso
        apply h'.1
        have hx1 : x.1 = i := by rw [← ha0]
        rw [hx1]
        exact List.mem_map_of_mem Prod.fst hb0
      · exfalso
        apply h'.1
        have hx1 : x.1 = i := by rw [← hb0]
        rw [hx1]
        exact List.mem_map_of_mem Prod.fst ha0
      · exact ih h'.2 ha0 hb0

/-- The delay maintenance step never changes an entity's id. -/
theorem delayStep_fst (delta : ℚ) (p : ℕ × EffectEntity) :
    (delayStep delta p).1 = p.1 := by
  unfold delayStep
  split
  · rfl
  · split <;> rfl

/-- `tick_delay` preserves the entity id list: it never despawns anything. -/
theorem tick_delay_keys (w : World) (delta : ℚ) :
    (tick_delay w delta).entities.map Prod.fst = w.entities.map Prod.fst := by
  show (w.entities.map (delayStep delta)).map Prod.fst = w.entities.map Prod.fst
  rw [List.map_map]
  exact List.map_congr_left fun p _ => delayStep_fst delta p

/-- Claim C9 (confirmed): the per-frame maintenance runs the lifetime step
before the delay step (`.chain()`); the lifetime step ticks every (queryable)
Lifetime by the frame delta, keeps the entity exactly when the ticked timer is
unfinished and despawns it (visible for the rest of the frame) when finished;
and the delay step only ticks Delay timers — it preserves the entity id list,
never despawning anything. -/
theorem C9_maintenance_frame (w : World) (delta : ℚ) :
    timerPluginFrame w delta = tick_delay (despawn_finished_lifetimes w delta) delta
    ∧ (∀ i ent l, (i, ent) ∈ w.entities → ent.disabled = false → ent.lifetime = some l →
        (((l.timer.tick delta).finished = false →
          (i, { ent with lifetime := some { l with timer := l.timer.tick delta } })
            ∈ (despawn_finished_lifetimes w delta).entities)
        ∧ ((w.entities.map Prod.fst).Nodup → (l.timer.tick delta).finished = true →
          ∀ ent', ¬ ((i, ent') ∈ (timerPluginFrame w delta).entities))))
    ∧ (∀ w' : World, (tick_delay w' delta).entities.map Prod.fst
        = w'.entities.map Prod.fst)
    ∧ (∀ (w' : World) (i : ℕ) (ent : EffectEntity),
        (i, ent) ∈ w'.entities → ent.disabled = false →
        (i, { ent with delay := Option.map (fun d => { d with timer := d.timer.tick delta }) ent.delay })
          ∈ (tick_delay w' delta).entities) := by
  refine ⟨rfl, ?_, fun w' => tick_delay_keys w' delta, ?_⟩
  · intro i ent l hmem hd hl
    constructor
    · intro hfin
      refine List.mem_filterMap.mpr ⟨(i, ent), hmem, ?_⟩
      simp [lifetimeStep, hd, hl, Timer.is_finished, hfin]
    · intro hnd hfin ent' hmem'
      have hkey : i ∈ (despawn_finished_lifetimes w delta).entities.map Prod.fst := by
        rw [← tick_delay_keys (despawn_finished_lifetimes w delta) delta]
        exact List.mem_map_of_mem Prod.fst hmem'
      obtain ⟨q, hq, hqi⟩ := List.mem_map.mp hkey
      obtain ⟨src, hsrc, hstep⟩ := List.mem_filterMap.mp hq
      obtain ⟨si, se⟩ := src
      have hsi : si = i := by
        have := lifetimeStep_key delta (si, se) q hstep
        rw [← hqi, this]
      subst hsi
      have hse : se = ent := assoc_unique w.entities hnd si se ent hsrc hmem
      subst hse
      have hnone : lifetimeStep delta (si, se) = none := by
        simp [lifetimeStep, hd, hl, Timer.is_finished, hfin]
      rw [hnone] at hstep
      exact Option.noConfusion hstep
  · intro w' i ent hmem hd
    have hmm := List.mem_map_of_mem (delayStep delta) hmem
    have heq : delayStep delta (i, ent)
        = (i, { ent with delay := Option.map (fun d => { d with timer := d.timer.tick delta }) ent.delay }) := by
      obtain ⟨ef, nm, md, lt, dl, st, pl, db⟩ := ent
      dsimp only [] at hd
      subst hd
      cases dl <;> simp [delayStep]
    rw [heq] at hmm
    exact hmm

theorem C9_maintenance_frame_witness :
    ¬ ((0, { EffectEntity.empty with effecting := some 7, lifetime := some c9lt })
        ∈ (timerPluginFrame c9world 2).entities) :=
  ((C9_maintenance_frame c9world 2).2.1 0
      { EffectEntity.empty with effecting := some 7, lifetime := some c9lt } c9lt
      (by simp [c9world]) rfl rfl).2 (by simp [c9world])
    (by norm_num [c9lt, Lifetime.from_seconds, Lifetime.new, Lifetime.default,
      Timer.new, Timer.tick])
    { EffectEntity.empty with effecting := some 7, lifetime := some c9lt }

end Alchemy
